import Mathlib

/-!
Verification of the line-based AI-code-detection engine in
`src/lib/aiDetection.ts` against its natural-language specification.

The engine is shallowly embedded:
* JavaScript numbers are modelled as rationals (`ℚ`).  The per-line
  scoring is kept exact: its weights are small decimal fractions, and
  every observable drawn from it here (score comparisons, the clamps, the
  concrete verdict values) is stable under binary64 rounding of the weight
  sums.  The aggregation arithmetic of `buildReport` — the two percentages
  and the overall mean — is instead computed with an explicit model of
  IEEE-754 binary64 rounding (`roundDouble`, `fadd`, `fmul`, `fdiv`),
  because there the rounding of the source's double arithmetic is
  observable in the returned report.
* Each regular expression of the source is translated into an executable
  matcher on `List Char`.  All registry regexes carry the JavaScript `g`
  flag and are tested with `RegExp.prototype.test`, whose semantics are:
  start the search at the regex object's mutable `lastIndex`; on success
  set `lastIndex` to the end of the match and return `true`; on failure
  reset `lastIndex` to `0` and return `false`.  The `lastIndex` values of
  the thirteen module-level pattern objects are therefore genuine mutable
  module state, modelled explicitly by the `RegState` structure that is
  threaded through the analysis.
* `LANGUAGE_PATTERNS[language]` is a JavaScript property access on a plain
  object literal: own keys `javascript` / `python` / `typescript` yield the
  pattern arrays, properties inherited from `Object.prototype` (for example
  `toString`) yield truthy non-iterable values so the subsequent
  `for...of` throws a `TypeError`, and all other keys yield `undefined`
  which `|| []` turns into the empty array.  Fallibility is modelled with
  `Except Unit`.
* The artificial `setTimeout` delay at the top of `analyzeCode` does not
  affect the returned value and is omitted, as the specification directs.
* Strings are Lean strings (sequences of code points); JavaScript's
  `String.prototype.length` counts UTF-16 units instead, which coincides
  with the code-point count except for supplementary-plane characters.
  The `i` regex flag is modelled as ASCII case folding, which agrees with
  the non-Unicode-mode canonicalisation on the all-ASCII keywords the
  source patterns use.
-/

attribute [local semireducible] Rat.add Rat.mul Rat.inv Rat.sub

/-! ### Character classes (JavaScript regex semantics) -/

/-- JavaScript regex `\w`, i.e. `[A-Za-z0-9_]`. -/
def isWordChar (c : Char) : Bool := c.isAlphanum || c = '_'

/-- JavaScript regex `\s` and `String.prototype.trim` whitespace:
ASCII whitespace plus the Unicode space separators, NBSP and BOM. -/
def jsIsSpace (c : Char) : Bool :=
  c = ' ' || c = '\t' || c = '\n' || c = '\r' || c.toNat = 0x0b || c.toNat = 0x0c ||
  c.toNat = 0xa0 || c.toNat = 0x1680 || (0x2000 ≤ c.toNat && c.toNat ≤ 0x200a) ||
  c.toNat = 0x2028 || c.toNat = 0x2029 || c.toNat = 0x202f || c.toNat = 0x205f ||
  c.toNat = 0x3000 || c.toNat = 0xfeff

/-- JavaScript line terminators (the characters `.` does not match). -/
def isLineTerm (c : Char) : Bool :=
  c = '\n' || c = '\r' || c.toNat = 0x2028 || c.toNat = 0x2029

/-- ASCII lower-casing, matching the canonicalisation performed by the
`i` flag on the (all-ASCII) keywords appearing in the source regexes. -/
def asciiLower (c : Char) : Char :=
  if 'A' ≤ c ∧ c ≤ 'Z' then Char.ofNat (c.toNat + 32) else c

/-! ### Matcher infrastructure

A `Matcher` decides whether a regex matches at the *start* of a suffix of
the subject string, given the character just before that suffix (needed
for `\b`), and returns the length of the match. -/

/-- A matcher: previous character (for word boundaries), suffix to match
at, and the length consumed on success. -/
abbrev Matcher := Option Char → List Char → Option Nat

/-- Whether the character before the current position is a word character
(`none` at the start of the string counts as a non-word position). -/
def isWordBefore : Option Char → Bool
  | some c => isWordChar c
  | none => false

/-- Match a literal character sequence (case-sensitively), returning the
remaining suffix. -/
def litMatch : List Char → List Char → Option (List Char)
  | [], cs => some cs
  | _ :: _, [] => none
  | k :: ks, c :: cs => if c = k then litMatch ks cs else none

/-- Match a literal (given in lower case) case-insensitively. -/
def litMatchCI : List Char → List Char → Option (List Char)
  | [], cs => some cs
  | _ :: _, [] => none
  | k :: ks, c :: cs => if asciiLower c = k then litMatchCI ks cs else none

/-- Ordered alternation: the result of the first alternative that
succeeds, mirroring backtracking order of `(a|b|c)` in a regex. -/
def firstSome {α : Type} (f : α → Option Nat) : List α → Option Nat
  | [] => none
  | x :: xs =>
    match f x with
    | some n => some n
    | none => firstSome f xs

/-- Leftmost-match search: try the matcher at every position from left to
right (as the regex engine advances the start position on failure),
returning the *end* index of the first match found. -/
def searchGo (m : Matcher) : Option Char → Nat → List Char → Option Nat
  | prev, pos, [] =>
    match m prev [] with
    | some len => some (pos + len)
    | none => none
  | prev, pos, c :: rest =>
    match m prev (c :: rest) with
    | some len => some (pos + len)
    | none => searchGo m (some c) (pos + 1) rest

/-- Search for a match starting at or after `lastIndex`; the characters
before `lastIndex` stay visible to word-boundary tests, as in JavaScript. -/
def searchFrom (m : Matcher) (lastIndex : Nat) (cs : List Char) : Option Nat :=
  searchGo m (cs.take lastIndex).getLast? lastIndex (cs.drop lastIndex)

/-- `RegExp.prototype.test` on a regex with the `g` flag: search from
`lastIndex`; on success return `true` and the end of the match as the new
`lastIndex`, on failure return `false` and reset `lastIndex` to `0`.
(When `lastIndex` exceeds the string length the search fails at once.) -/
def regTest (m : Matcher) (lastIndex : Nat) (cs : List Char) : Bool × Nat :=
  if cs.length < lastIndex then (false, 0)
  else
    match searchFrom m lastIndex cs with
    | some e => (true, e)
    | none => (false, 0)

/-- Whether the matcher matches anywhere in the string (the semantics of
`String.prototype.match` used as a boolean, on a fresh regex literal). -/
def hasMatch (m : Matcher) (cs : List Char) : Bool := (searchGo m none 0 cs).isSome

/-- Count the matches of `String.prototype.match` with a global regex:
repeatedly find the leftmost match and continue right after it.  Fuel is
`length + 1`; every step consumes at least one character (all regexes
counted this way match at least two characters), so the fuel suffices. -/
def countMGo (m : Matcher) : Nat → Option Char → List Char → Nat
  | 0, _, _ => 0
  | fuel + 1, prev, cs =>
    match m prev cs with
    | some len =>
      let step := max len 1
      1 + countMGo m fuel ((cs.take step).getLast?) (cs.drop step)
    | none =>
      match cs with
      | [] => 0
      | c :: rest => countMGo m fuel (some c) rest

/-- Number of non-overlapping matches of a global regex in a string. -/
def countMatches (m : Matcher) (cs : List Char) : Nat :=
  countMGo m (cs.length + 1) none cs

/-! ### The individual regexes of the source -/

/-- Distance to the earliest `*/`, the lazy `[\s\S]*?` step of the block
comment alternative. -/
def findCommentClose : List Char → Option Nat
  | '*' :: '/' :: _ => some 0
  | _ :: rest => (findCommentClose rest).map (· + 1)
  | [] => none

/-- `/\*[\s\S]*?\*\/|\/\/.*$` (flags `gm`): a block comment closed by the
earliest `*/`, or `//` followed by the rest of the line (`.*` greedily
consumes up to the next line terminator, after which `$` always holds in
multiline mode).  When the first alternative's `/*` prefix is present but
unclosed, the second alternative cannot apply at the same position either
(its second character would have to be `/`, not `*`). -/
def matchComment : Matcher := fun _ cs =>
  match cs with
  | '/' :: '*' :: rest => (findCommentClose rest).map (fun k => k + 4)
  | '/' :: '/' :: rest => some (2 + (rest.takeWhile (fun c => !(isLineTerm c))).length)
  | _ => none

/-- Ordered keyword alternation for `\b(kw1|...|kwN)\d*\b` (flags `gi`).
The leading `\b` forces a non-word character (or the string start) before
the keyword; after the keyword the greedy `\d*` takes the whole digit run
(any shorter prefix would put the following `\b` between two word
characters), and the trailing `\b` requires the next character to be a
non-word character or the end. -/
def matchKeywordDigits (kws : List (List Char)) : Matcher := fun prev cs =>
  if isWordBefore prev then none
  else
    firstSome (fun kw =>
      match litMatchCI kw cs with
      | some rest =>
        let ds := (rest.takeWhile Char.isDigit).length
        match rest.drop ds with
        | [] => some (kw.length + ds)
        | c :: _ => if isWordChar c then none else some (kw.length + ds)
      | none => none) kws

/-- Like `matchKeywordDigits` but without the `\d*` part, for the regexes
of the shape `\b(kw1|...|kwN)\b`. -/
def matchKeywordWord (kws : List (List Char)) : Matcher := fun prev cs =>
  if isWordBefore prev then none
  else
    firstSome (fun kw =>
      match litMatchCI kw cs with
      | some [] => some kw.length
      | some (c :: _) => if isWordChar c then none else some kw.length
      | none => none) kws

/-- The keyword list of `\b(result|response|data|item|element|value|temp|obj|arr)\d*\b`. -/
def genericVarNames : List (List Char) :=
  ["result", "response", "data", "item", "element", "value", "temp", "obj", "arr"].map String.data

/-- The keyword list of
`\b(btn|txt|img|nav|auth|admin|cfg|opts|params|args|ctx|req|res|db|api)\b`. -/
def abbrevNames : List (List Char) :=
  ["btn", "txt", "img", "nav", "auth", "admin", "cfg", "opts", "params",
   "args", "ctx", "req", "res", "db", "api"].map String.data

/-- The keyword list of `\b(foo|bar|baz|qux|quirky|magic|hack|wtf)\b` (flag `i`). -/
def quirkyNames : List (List Char) :=
  ["foo", "bar", "baz", "qux", "quirky", "magic", "hack", "wtf"].map String.data

/-- `(try\s*\x7b|catch\s*\(|finally\s*\x7b)` (flag `g`): keyword, then
greedily skipped whitespace, then the expected bracket.  The greedy `\s*`
is deterministic because the bracket is never a whitespace character. -/
def matchTryCatch : Matcher := fun _ cs =>
  firstSome (fun arg =>
    match litMatch arg.1 cs with
    | some rest =>
      let w := (rest.takeWhile jsIsSpace).length
      match rest.drop w with
      | c :: _ => if c = arg.2 then some (arg.1.length + w + 1) else none
      | [] => none
    | none => none)
    [("try".data, '\x7b'), ("catch".data, '('), ("finally".data, '\x7b')]

/-- `(TODO|FIXME|NOTE|HACK):` (flags `gi`). -/
def matchTodoMarker : Matcher := fun _ cs =>
  firstSome (fun kw =>
    match litMatchCI kw cs with
    | some (':' :: _) => some (kw.length + 1)
    | _ => none)
    (["todo", "fixme", "note", "hack"].map String.data)

/-- `(\w+)\s*=\s*\1` (flag `g`): the greedy `(\w+)` must capture the whole
word run at the position (with any shorter capture the next character is a
word character, so `\s*` matches nothing and `=` fails), both `\s*` are
deterministic (`=` and the leading `\w` of `\1` are not whitespace), and
then the captured run must literally repeat. -/
def matchSelfAssign : Matcher := fun _ cs =>
  let w := cs.takeWhile isWordChar
  if w.isEmpty then none
  else
    let r1 := cs.drop w.length
    let ws1 := (r1.takeWhile jsIsSpace).length
    match r1.drop ws1 with
    | '=' :: r2 =>
      let ws2 := (r2.takeWhile jsIsSpace).length
      match litMatch w (r2.drop ws2) with
      | some _ => some (w.length + ws1 + 1 + ws2 + w.length)
      | none => none
    | _ => none

/-- The greedy `(?:\\.|[^\/\\\n])*` loop of the regex-literal pattern:
an escape `\\.` consumes two characters (unless the escaped character is a
line terminator, which `.` cannot match), the class `[^\/\\\n]` consumes
one character that is not `/`, `\` or a newline.  Backtracking out of the
loop can never help, because the character at the start of every completed
iteration is `\` or a class character, never the required `/`. -/
def regexBodyLen : List Char → Nat
  | '\\' :: c :: rest => if isLineTerm c then 0 else 2 + regexBodyLen rest
  | ['\\'] => 0
  | c :: rest => if c = '/' || c = '\\' || c = '\n' then 0 else 1 + regexBodyLen rest
  | [] => 0

/-- `\/(?:\\.|[^\/\\\n])*\/[gimuy]*` (flag `g`): a slash, the body loop,
a closing slash, then any regex flags. -/
def matchRegexLit : Matcher := fun _ cs =>
  match cs with
  | '/' :: rest =>
    let b := regexBodyLen rest
    match rest.drop b with
    | '/' :: rest2 =>
      some (1 + b + 1 +
        (rest2.takeWhile (fun c => c = 'g' || c = 'i' || c = 'm' || c = 'u' || c = 'y')).length)
    | _ => none
  | _ => none

/-- `\s\x7b3,\x7d|\t\s+|\s+\t` (flag `g`).  The first alternative greedily
takes a whitespace run of length at least 3.  Otherwise the run has length
at most 2: the second alternative needs a tab followed by at least one
whitespace character; the third (`\s+` then `\t`, with backtracking over
the greedy `\s+`) can then only succeed as one whitespace character
followed by a tab. -/
def matchInconsistentSpacing : Matcher := fun _ cs =>
  let n := (cs.takeWhile jsIsSpace).length
  if 3 ≤ n then some n
  else
    match cs with
    | '\t' :: rest =>
      let m := (rest.takeWhile jsIsSpace).length
      if 1 ≤ m then some (1 + m) else none
    | c :: '\t' :: _ => if jsIsSpace c then some 2 else none
    | _ => none

/-- `console\.log\([^)]*\)` (flag `g`); the greedy `[^)]*` then `\)` is
deterministic since the class excludes `)`. -/
def matchConsoleLog : Matcher := fun _ cs =>
  match litMatch "console.log(".data cs with
  | some rest =>
    let a := (rest.takeWhile (fun c => !(c = ')'))).length
    match rest.drop a with
    | ')' :: _ => some ("console.log(".length + a + 1)
    | _ => none
  | none => none

/-- `function\s+\w+\s*\([^)]*\)\s*\x7b` (flag `g`); every greedy piece is
deterministic because each following literal lies outside the preceding
character class. -/
def matchFunctionDecl : Matcher := fun _ cs =>
  match litMatch "function".data cs with
  | some r1 =>
    let w1 := (r1.takeWhile jsIsSpace).length
    if w1 = 0 then none
    else
      let r2 := r1.drop w1
      let n1 := (r2.takeWhile isWordChar).length
      if n1 = 0 then none
      else
        let r3 := r2.drop n1
        let w2 := (r3.takeWhile jsIsSpace).length
        match r3.drop w2 with
        | '(' :: r4 =>
          let a := (r4.takeWhile (fun c => !(c = ')'))).length
          match r4.drop a with
          | ')' :: r5 =>
            let w3 := (r5.takeWhile jsIsSpace).length
            match r5.drop w3 with
            | '\x7b' :: _ => some ("function".length + w1 + n1 + w2 + 1 + a + 1 + w3 + 1)
            | _ => none
          | _ => none
        | _ => none
  | none => none

/-- `print\([^)]*\)` (flag `g`). -/
def matchPrintCall : Matcher := fun _ cs =>
  match litMatch "print(".data cs with
  | some rest =>
    let a := (rest.takeWhile (fun c => !(c = ')'))).length
    match rest.drop a with
    | ')' :: _ => some ("print(".length + a + 1)
    | _ => none
  | none => none

/-- `def\s+\w+\s*\([^)]*\):` (flag `g`). -/
def matchDefStmt : Matcher := fun _ cs =>
  match litMatch "def".data cs with
  | some r1 =>
    let w1 := (r1.takeWhile jsIsSpace).length
    if w1 = 0 then none
    else
      let r2 := r1.drop w1
      let n1 := (r2.takeWhile isWordChar).length
      if n1 = 0 then none
      else
        let r3 := r2.drop n1
        let w2 := (r3.takeWhile jsIsSpace).length
        match r3.drop w2 with
        | '(' :: r4 =>
          let a := (r4.takeWhile (fun c => !(c = ')'))).length
          match r4.drop a with
          | ')' :: ':' :: _ => some ("def".length + w1 + n1 + w2 + 1 + a + 1 + 1)
          | _ => none
        | _ => none
  | none => none

/-- `:\s*(string|number|boolean|any|unknown|void|never)\b` (flag `g`),
case-sensitive. -/
def matchTypeAnn : Matcher := fun _ cs =>
  match cs with
  | ':' :: r1 =>
    let w := (r1.takeWhile jsIsSpace).length
    let r2 := r1.drop w
    firstSome (fun kw =>
      match litMatch kw r2 with
      | some [] => some (1 + w + kw.length)
      | some (c :: _) => if isWordChar c then none else some (1 + w + kw.length)
      | none => none)
      (["string", "number", "boolean", "any", "unknown", "void", "never"].map String.data)
  | _ => none

/-- `(try|catch|throw|Error|Exception)` (flag `g`), case-sensitive; used by
the structure analyzer to count defensive-programming tokens. -/
def matchErrorToken : Matcher := fun _ cs =>
  firstSome (fun kw => (litMatch kw cs).map (fun _ => kw.length))
    (["try", "catch", "throw", "Error", "Exception"].map String.data)

/-! ### The pattern registry -/

/-- One entry of the pattern tables: the compiled regex (with its mutable
`lastIndex` held separately in `RegState`), its weight, its justification
text, and its polarity. -/
structure DetectionPattern where
  pattern : Matcher
  weight : ℚ
  reason : String
  aiIndicator : Bool

/-- The TODO/FIXME entry of the general pattern table (named separately so
the monotonicity proof of claim C8 can point at it). -/
def todoPattern : DetectionPattern :=
  { pattern := matchTodoMarker, weight := 5/10,
    reason := "Contains TODO/FIXME comments suggesting human planning", aiIndicator := false }

/-- The eight general patterns, `AI_PATTERNS` in the source, in source
order. -/
def AI_PATTERNS : List DetectionPattern :=
  [{ pattern := matchComment, weight := 3/10,
     reason := "Contains verbose or generic comments typical of AI generation", aiIndicator := true },
   { pattern := matchKeywordDigits genericVarNames, weight := 4/10,
     reason := "Uses generic variable names common in AI-generated code", aiIndicator := true },
   { pattern := matchTryCatch, weight := 2/10,
     reason := "Contains comprehensive error handling patterns", aiIndicator := true },
   { pattern := matchSelfAssign, weight := 3/10,
     reason := "Contains repetitive assignment patterns", aiIndicator := true },
   todoPattern,
   { pattern := matchRegexLit, weight := 3/10,
     reason := "Contains complex regex patterns", aiIndicator := false },
   { pattern := matchInconsistentSpacing, weight := 2/10,
     reason := "Has inconsistent spacing typical of human editing", aiIndicator := false },
   { pattern := matchKeywordWord abbrevNames, weight := 3/10,
     reason := "Uses domain-specific abbreviations common in human code", aiIndicator := false }]

/-- `LANGUAGE_PATTERNS.javascript`. -/
def JS_PATTERNS : List DetectionPattern :=
  [{ pattern := matchConsoleLog, weight := 2/10,
     reason := "Contains debug console.log statements", aiIndicator := false },
   { pattern := matchFunctionDecl, weight := 1/10,
     reason := "Uses function declarations", aiIndicator := true }]

/-- `LANGUAGE_PATTERNS.python`. -/
def PYTHON_PATTERNS : List DetectionPattern :=
  [{ pattern := matchPrintCall, weight := 2/10,
     reason := "Contains debug print statements", aiIndicator := false },
   { pattern := matchDefStmt, weight := 1/10,
     reason := "Uses function definitions", aiIndicator := true }]

/-- `LANGUAGE_PATTERNS.typescript`. -/
def TYPESCRIPT_PATTERNS : List DetectionPattern :=
  [{ pattern := matchTypeAnn, weight := 2/10,
     reason := "Contains explicit type annotations", aiIndicator := true }]

/-- The properties every plain JavaScript object literal inherits from
`Object.prototype`.  For these keys `LANGUAGE_PATTERNS[language]` yields a
truthy non-array value (a function, or `Object.prototype` itself for
`__proto__`), `|| []` does not replace it, and the following
`for (const pattern of langPatterns)` throws a `TypeError`. -/
def objectProtoProps : List String :=
  ["constructor", "hasOwnProperty", "isPrototypeOf", "propertyIsEnumerable",
   "toLocaleString", "toString", "valueOf", "__defineGetter__",
   "__defineSetter__", "__lookupGetter__", "__lookupSetter__", "__proto__"]

/-! ### Mutable regex state -/

/-- The `lastIndex` values of the thirteen module-level regex objects, in
source order: the eight general patterns and the two JavaScript, two
Python and one TypeScript language patterns. -/
structure RegState where
  gen : List Nat
  js : List Nat
  py : List Nat
  ts : List Nat
deriving DecidableEq

/-- The module state right after loading: every `lastIndex` is `0`. -/
def RegState.fresh : RegState := ⟨[0, 0, 0, 0, 0, 0, 0, 0], [0, 0], [0, 0], [0]⟩

/-! ### The line scorer -/

/-- The three accumulator variables of `analyzeLine`. -/
structure ScoreAcc where
  aiScore : ℚ
  humanScore : ℚ
  reasons : List String
deriving DecidableEq

/-- One iteration of the pattern loops in `analyzeLine`:
`if (pattern.pattern.test(content)) { add weight; push reason }`, returning
the updated accumulator and the pattern's new `lastIndex`. -/
def stepPat (p : DetectionPattern) (lastIndex : Nat) (cs : List Char) (s : ScoreAcc) :
    ScoreAcc × Nat :=
  let r := regTest p.pattern lastIndex cs
  if r.1 then
    (if p.aiIndicator then
       { s with aiScore := s.aiScore + p.weight, reasons := s.reasons ++ [p.reason] }
     else
       { s with humanScore := s.humanScore + p.weight, reasons := s.reasons ++ [p.reason] },
     r.2)
  else (s, r.2)

/-- Run a pattern list over the trimmed line, threading each pattern's
`lastIndex` (input and output state lists are aligned with the pattern
list). -/
def runPats : List DetectionPattern → List Nat → List Char → ScoreAcc → ScoreAcc × List Nat
  | [], _, _, s => (s, [])
  | p :: ps, sts, cs, s =>
    let r := stepPat p (sts.headD 0) cs s
    let rec2 := runPats ps sts.tail cs r.1
    (rec2.1, r.2 :: rec2.2)

/-- The pattern-matching phase of `analyzeLine` on the trimmed content:
general patterns, then `const langPatterns = LANGUAGE_PATTERNS[language] || []`
(see `objectProtoProps` for the throwing cases) and the language patterns. -/
def scoreLine (cs : List Char) (language : String) (st : RegState) :
    Except Unit (ScoreAcc × RegState) :=
  let r1 := runPats AI_PATTERNS st.gen cs ⟨0, 0, []⟩
  if language = "javascript" then
    let r2 := runPats JS_PATTERNS st.js cs r1.1
    .ok (r2.1, { st with gen := r1.2, js := r2.2 })
  else if language = "python" then
    let r2 := runPats PYTHON_PATTERNS st.py cs r1.1
    .ok (r2.1, { st with gen := r1.2, py := r2.2 })
  else if language = "typescript" then
    let r2 := runPats TYPESCRIPT_PATTERNS st.ts cs r1.1
    .ok (r2.1, { st with gen := r1.2, ts := r2.2 })
  else if objectProtoProps.contains language then
    .error ()
  else
    .ok (r1.1, { st with gen := r1.2 })

/-- The characters of the fresh literal `/[\x7b\x7d();,]/` in the short-line
heuristic. -/
def shortLinePunct : List Char := ['\x7b', '\x7d', '(', ')', ';', ',']

/-- The "code-safe" character set of the perfect-syntax heuristic: the
line must contain no character outside word characters, whitespace, the
brackets, and `;:,.<>!@#$%^&*+=|\\?` plus slash and hyphen. -/
def isSafeChar (c : Char) : Bool :=
  isWordChar c || jsIsSpace c ||
  ['(', ')', '[', ']', '\x7b', '\x7d', ';', ':', ',', '.', '<', '>', '!', '@',
   '#', '$', '%', '^', '&', '*', '+', '=', '|', '\\', '?', '/', '-'].contains c

/-- Line-length heuristic: `content.length > 120` adds AI weight `0.2`,
otherwise `content.length < 20` with none of `\x7b\x7d();,` adds human
weight `0.1`. -/
def heurLength (cs : List Char) (s : ScoreAcc) : ScoreAcc :=
  if 120 < cs.length then
    { s with aiScore := s.aiScore + 2/10,
             reasons := s.reasons ++ ["Very long line length typical of AI generation"] }
  else if cs.length < 20 ∧ cs.all (fun c => !(shortLinePunct.contains c)) then
    { s with humanScore := s.humanScore + 1/10,
             reasons := s.reasons ++ ["Short, concise line suggests human writing"] }
  else s

/-- Perfect-syntax heuristic: every character in the safe set and length
greater than 30 adds AI weight `0.1`. -/
def heurCleanChars (cs : List Char) (s : ScoreAcc) : ScoreAcc :=
  if cs.all isSafeChar ∧ 30 < cs.length then
    { s with aiScore := s.aiScore + 1/10, reasons := s.reasons ++ ["Perfect syntax and structure"] }
  else s

/-- Quirky-naming heuristic: a match of `\b(foo|bar|baz|qux|quirky|magic|hack|wtf)\b`
(case-insensitive) adds human weight `0.3`. -/
def heurQuirky (cs : List Char) (s : ScoreAcc) : ScoreAcc :=
  if hasMatch (matchKeywordWord quirkyNames) cs then
    { s with humanScore := s.humanScore + 3/10,
             reasons := s.reasons ++ ["Uses creative or placeholder naming typical of humans"] }
  else s

/-- The three standalone heuristic blocks of `analyzeLine`, in source
order. -/
def applyHeuristics (cs : List Char) (s : ScoreAcc) : ScoreAcc :=
  heurQuirky cs (heurCleanChars cs (heurLength cs s))

/-- JavaScript `String.prototype.trim` on the character list. -/
def trimList (cs : List Char) : List Char :=
  ((cs.dropWhile jsIsSpace).reverse.dropWhile jsIsSpace).reverse

/-- JavaScript `String.prototype.trim`. -/
def jsTrim (s : String) : String := String.mk (trimList s.data)

/-- The per-line verdict record (`LineAnalysis` in the source). -/
structure LineAnalysis where
  content : String
  isAI : Bool
  confidence : ℚ
  reasons : List String
deriving DecidableEq

/-- The verdict-construction tail of `analyzeLine`: classification is AI
iff `aiScore > humanScore` (strictly), confidence is
`max(aiScore, humanScore) / totalScore` (or `0.5` for a zero total)
clamped into `[0.1, 0.95]`, and an empty justification list is replaced by
the neutral message. -/
def mkVerdict (line : String) (s : ScoreAcc) : LineAnalysis :=
  let totalScore := s.aiScore + s.humanScore
  let conf0 : ℚ := if 0 < totalScore then max s.aiScore s.humanScore / totalScore else 1/2
  { content := line,
    isAI := s.humanScore < s.aiScore,
    confidence := min (max conf0 (1/10)) (19/20),
    reasons :=
      if s.reasons = [] then ["No significant patterns detected - neutral classification"]
      else s.reasons }

/-- `analyzeLine(line, lineNumber, language)`.  Blank lines return the
sentinel verdict before any pattern runs (so the regex state is untouched
and the language lookup — which could throw — is never reached).  The
`lineNumber` argument is unused, as in the source. -/
def analyzeLine (line : String) (_lineNumber : Nat) (language : String) (st : RegState) :
    Except Unit (LineAnalysis × RegState) :=
  if jsTrim line = "" then
    .ok ({ content := line, isAI := false, confidence := 1/2,
           reasons := ["Empty line - neutral"] }, st)
  else
    match scoreLine (jsTrim line).data language st with
    | .error e => .error e
    | .ok (s0, st') => .ok (mkVerdict line (applyHeuristics (jsTrim line).data s0), st')

/-! ### The structure analyzer -/

/-- `code.split('\n')` as a list of character lists. -/
def splitGo : List Char → List (List Char)
  | [] => [[]]
  | c :: rest =>
    if c = '\n' then [] :: splitGo rest
    else
      match splitGo rest with
      | [] => [[c]]
      | g :: gs => (c :: g) :: gs

/-- `code.split('\n')`. -/
def jsSplit (s : String) : List String := (splitGo s.data).map (fun l => String.mk l)

/-- The indentation-consistency loop of `analyzeCodeStructure`: the
running `indentPattern` starts empty, is set to the first nonempty indent
encountered, and a line counts as consistent when its indent equals the
pattern, is empty, or starts with the pattern. -/
def indentConsistency : List String → List Char → Nat
  | [], _ => 0
  | line :: rest, indentPattern =>
    let indent := line.data.takeWhile jsIsSpace
    let indentPattern2 := if indentPattern = [] ∧ ¬ indent = [] then indent else indentPattern
    (if indent = indentPattern2 ∨ indent = [] ∨ indentPattern2.isPrefixOf indent then 1 else 0) +
      indentConsistency rest indentPattern2

/-- `analyzeCodeStructure(code)`: indentation consistency (`> 0.9` of
non-blank lines adds `0.3`), comment density (`> 0.3` adds `0.2`) and
defensive-programming token count (`> 10%` of non-blank lines adds `0.2`),
capped at `1`.  When there is no non-blank line the JavaScript ratios are
`0/0 = NaN` and every comparison with `NaN` is false; in `ℚ` division by
zero yields `0` (and each numerator is `0` as well, since comments and
error tokens require non-whitespace characters), so no weight is added in
either semantics. -/
def analyzeCodeStructure (code : String) : ℚ :=
  let lines := (jsSplit code).filter (fun line => ¬ jsTrim line = "")
  let consistentIndentation := indentConsistency lines []
  let aiScore1 : ℚ := if 9/10 < (consistentIndentation : ℚ) / (lines.length : ℚ) then 3/10 else 0
  let commentLines := countMatches matchComment code.data
  let aiScore2 : ℚ := if 3/10 < (commentLines : ℚ) / (lines.length : ℚ) then 2/10 else 0
  let errorHandlingCount := countMatches matchErrorToken code.data
  let aiScore3 : ℚ := if (lines.length : ℚ) * (1/10) < (errorHandlingCount : ℚ) then 2/10 else 0
  min (aiScore1 + aiScore2 + aiScore3) 1

/-! ### IEEE-754 binary64 rounding

The percentages and the overall confidence of `analyzeCode` are computed
on JavaScript numbers, i.e. IEEE-754 binary64 doubles, and their rounding
is observable in the returned report: for example `(1/3)*100 + (2/3)*100`
is `99.99999999999999`, not `100`.  `roundDouble` maps an exact rational
to the value of the nearest double (round to nearest, ties to even), and
`fadd`/`fmul`/`fdiv` are the basic operations, which IEEE-754 defines as
the correctly rounded exact results.  The model agrees with binary64
throughout the normal range `[2^-1022, 2^1024)` of magnitudes; outside
that range (unreachable for the aggregation values of any physically
possible input) a value is returned exactly rather than overflowing or
losing denormal precision. -/

/-- `q * 2 ^ k` with an integer exponent, executable with natural-number
powers. -/
def shift2 (q : ℚ) (k : ℤ) : ℚ :=
  if 0 ≤ k then q * ((2 ^ k.toNat : ℕ) : ℚ) else q / ((2 ^ (-k).toNat : ℕ) : ℚ)

/-- Scan upward for the binary exponent of `q`: starting from `e` with
`2 ^ e ≤ q`, return the unique exponent `d` with `2 ^ d ≤ q < 2 ^ (d + 1)`
if it is reached within `fuel` steps. -/
def findExpGo (q : ℚ) : Nat → ℤ → Option ℤ
  | 0, _ => none
  | fuel + 1, e => if q < shift2 1 (e + 1) then some e else findExpGo q fuel (e + 1)

/-- Round to the nearest integer, ties to even. -/
def roundInt (m : ℚ) : ℤ :=
  if 1/2 < m - (⌊m⌋ : ℚ) then ⌊m⌋ + 1
  else if m - (⌊m⌋ : ℚ) < 1/2 then ⌊m⌋
  else if ⌊m⌋ % 2 = 0 then ⌊m⌋ else ⌊m⌋ + 1

/-- Round a positive rational to 53 significant bits (to nearest, ties to
even): the value of the nearest IEEE-754 binary64 double throughout the
normal range `[2^-1022, 2^1024)`.  Outside that range the value is
returned exactly. -/
def roundPos (q : ℚ) : ℚ :=
  if shift2 1 (-1022) ≤ q then
    match findExpGo q 2046 (-1022) with
    | some e => shift2 ((roundInt (shift2 q (52 - e)) : ℤ) : ℚ) (e - 52)
    | none => q
  else q

/-- The IEEE-754 binary64 value nearest to an exact rational (round to
nearest, ties to even). -/
def roundDouble (q : ℚ) : ℚ :=
  if q = 0 then 0 else if 0 < q then roundPos q else -roundPos (-q)

/-- IEEE binary64 addition: the correctly rounded exact sum. -/
def fadd (x y : ℚ) : ℚ := roundDouble (x + y)

/-- IEEE binary64 multiplication: the correctly rounded exact product. -/
def fmul (x y : ℚ) : ℚ := roundDouble (x * y)

/-- IEEE binary64 division: the correctly rounded exact quotient. -/
def fdiv (x y : ℚ) : ℚ := roundDouble (x / y)

/-! ### The aggregator -/

/-- The final report record (`AnalysisResult` in the source). -/
structure AnalysisResult where
  totalLines : Nat
  aiLines : Nat
  humanLines : Nat
  aiPercentage : ℚ
  humanPercentage : ℚ
  overallConfidence : ℚ
  lineAnalysis : List LineAnalysis
deriving DecidableEq

/-- The structural confidence adjustment inside the per-line loop of
`analyzeCode`: when the structure score exceeds `0.5`, an AI-classified
line's confidence is raised by `0.1`, capped at `0.95`. -/
def applyBoost (structureScore : ℚ) (a : LineAnalysis) : LineAnalysis :=
  if 1/2 < structureScore ∧ a.isAI = true then
    { a with confidence := min (a.confidence + 1/10) (19/20) }
  else a

/-- The per-line loop of `analyzeCode`: analyze each line in order,
applying the structural confidence boost to each verdict. -/
def analyzeAllLines :
    List String → Nat → String → ℚ → RegState → Except Unit (List LineAnalysis × RegState)
  | [], _, _, _, st => .ok ([], st)
  | line :: rest, i, language, structureScore, st =>
    match analyzeLine line (i + 1) language st with
    | .error e => .error e
    | .ok (a, st') =>
      match analyzeAllLines rest (i + 1) language structureScore st' with
      | .error e => .error e
      | .ok (rs, st2) => .ok (applyBoost structureScore a :: rs, st2)

/-- The statistics section of `analyzeCode`: filter to non-blank verdicts,
count classifications, compute percentages and the mean confidence.  The
percentages and the mean are double arithmetic in the source
(`(aiLines / totalLines) * 100` and `reduce`-sum divided by length), so
they are modelled with the binary64 operations. -/
def buildReport (lineAnalysis : List LineAnalysis) : AnalysisResult :=
  let nonEmptyLines := lineAnalysis.filter (fun l => ¬ jsTrim l.content = "")
  let aiLines := (nonEmptyLines.filter (fun l => l.isAI)).length
  let humanLines := nonEmptyLines.length - aiLines
  let totalLines := nonEmptyLines.length
  let aiPercentage : ℚ :=
    if 0 < totalLines then fmul (fdiv (aiLines : ℚ) (totalLines : ℚ)) 100 else 0
  let humanPercentage : ℚ :=
    if 0 < totalLines then fmul (fdiv (humanLines : ℚ) (totalLines : ℚ)) 100 else 0
  let overallConfidence : ℚ :=
    if 0 < nonEmptyLines.length then
      fdiv (nonEmptyLines.foldl (fun sum l => fadd sum l.confidence) 0)
        (nonEmptyLines.length : ℚ)
    else 1/2
  { totalLines := totalLines, aiLines := aiLines, humanLines := humanLines,
    aiPercentage := aiPercentage, humanPercentage := humanPercentage,
    overallConfidence := overallConfidence, lineAnalysis := lineAnalysis }

/-- `analyzeCode(code, language)` (the artificial delay omitted): split
into lines, compute the structure score once, analyze every line with the
boost, and build the report.  The threaded `RegState` is the mutable
module state of the thirteen global regex objects. -/
def analyzeCode (code : String) (language : String) (st : RegState) :
    Except Unit (AnalysisResult × RegState) :=
  match analyzeAllLines (jsSplit code) 0 language (analyzeCodeStructure code) st with
  | .error e => .error e
  | .ok (la, st') => .ok (buildReport la, st')

/-! ### Closed-form projections used by concrete evaluations -/

/-- Placeholder report returned by `runReport` when the call throws; its
`confidence`-free shape cannot be produced by a successful run on the
inputs where it is used. -/
def emptyReport : AnalysisResult :=
  { totalLines := 0, aiLines := 0, humanLines := 0, aiPercentage := 0,
    humanPercentage := 0, overallConfidence := 0, lineAnalysis := [] }

/-- The report of a call of `analyzeCode` (the placeholder on a throw). -/
def runReport (code language : String) (st : RegState) : AnalysisResult :=
  match analyzeCode code language st with
  | .ok (r, _) => r
  | .error _ => emptyReport

/-- The module state after a call of `analyzeCode` (unchanged on a throw). -/
def runState (code language : String) (st : RegState) : RegState :=
  match analyzeCode code language st with
  | .ok (_, st') => st'
  | .error _ => st

/-- The verdict `analyzeLine` produces for a single line from the fresh
module state (a placeholder with confidence `0` on a throw). -/
def lineOf (line language : String) : LineAnalysis :=
  match analyzeLine line 1 language RegState.fresh with
  | .ok (a, _) => a
  | .error _ => { content := line, isAI := false, confidence := 0, reasons := [] }

/-- The accumulated scores (patterns plus heuristics) of a line from the
fresh module state; `(0, 0)` placeholder on a throw. -/
def lineScores (line language : String) : ScoreAcc :=
  match scoreLine (jsTrim line).data language RegState.fresh with
  | .ok (s, _) => applyHeuristics (jsTrim line).data s
  | .error _ => ⟨0, 0, []⟩

/-- The accumulated human score of a line from the fresh module state. -/
def humanScoreOf (line language : String) : ℚ := (lineScores line language).humanScore

/-- The accumulated AI score of a line from the fresh module state. -/
def aiScoreOf (line language : String) : ℚ := (lineScores line language).aiScore

/-- The scenario line of claim C4. -/
def C4code : String := "// TODO: fix this hack later"

/-- A 114-character Human-classified line used to refute the
confidence-monotonicity half of claim C8: appending a TODO marker pushes
it over the 120-character long-line threshold. -/
def C8line : String := "foo" ++ String.join (List.replicate 37 " ab")

/-- The three-line input of the C5 counterexample: `"x = x;"` fires the
self-assignment pattern (AI), while `"foo"` and `"bar"` fire the
quirky-name and short-line heuristics (Human), so the report has
`totalLines = 3` and `aiLines = 1`. -/
def C5code : String := "x = x;\nfoo\nbar"

/-- The per-verdict invariant maintained by the engine: blank lines carry
the exact sentinel confidence and Human classification, non-blank lines a
confidence in `[1/2, 19/20]`. -/
def lineInv (v : LineAnalysis) : Prop :=
  (jsTrim v.content = "" → v.confidence = 1/2 ∧ v.isAI = false) ∧
  (¬ jsTrim v.content = "" → 1/2 ≤ v.confidence ∧ v.confidence ≤ 19/20)

/-! ### Concrete evaluations deciding the stateful and throwing claims -/

set_option maxRecDepth 40000 in
set_option maxHeartbeats 2000000 in
/-- Claim C1 (refuted by the code, code bug): `analyzeCode` is *not* a
pure function of `(code, language)`.  Calling it twice in succession on
the identical input `("try \x7b", "x")` from the fresh module state gives two
different reports: the first call classifies the single line as AI
(`aiLines = 1`) and leaves the try/catch pattern's `lastIndex` at `5`, so
the second call no longer matches the pattern and classifies the same line
as Human (`aiLines = 0`, `humanLines = 1`). -/
theorem C1_second_call_differs :
    (runReport "try \x7b" "x" RegState.fresh).aiLines = 1 ∧
    (runReport "try \x7b" "x" RegState.fresh).totalLines = 1 ∧
    runState "try \x7b" "x" RegState.fresh ≠ RegState.fresh ∧
    (runReport "try \x7b" "x" (runState "try \x7b" "x" RegState.fresh)).aiLines = 0 ∧
    (runReport "try \x7b" "x" (runState "try \x7b" "x" RegState.fresh)).humanLines = 1 ∧
    runReport "try \x7b" "x" (runState "try \x7b" "x" RegState.fresh) ≠
      runReport "try \x7b" "x" RegState.fresh := by
  decide

set_option maxHeartbeats 1000000 in
/-- Claim C2 (refuted by the code, code bug): `analyzeCode` is not total
over all language identifiers.  For a language string naming an
`Object.prototype` member, such as `"toString"`,
`LANGUAGE_PATTERNS[language]` is a truthy non-iterable value, `|| []` does
not replace it, and iterating it throws a `TypeError`; an ordinary
unrecognized identifier such as `"klingon"` is indeed silently treated
like the empty pattern set. -/
theorem C2_prototype_language_throws :
    analyzeCode "x" "toString" RegState.fresh = .error () ∧
    analyzeCode "x" "klingon" RegState.fresh = analyzeCode "x" "" RegState.fresh :=
  ⟨rfl, rfl⟩

set_option maxRecDepth 4000 in
set_option maxHeartbeats 1000000 in
/-- Claim C3 (counterexample): on empty input the report's verdict list is
*not* empty — `"".split('\n')` is `[""]`, so the report carries exactly one
blank-line sentinel verdict, although `totalLines = 0` and
`overallConfidence = 0.5` hold as claimed. -/
theorem C3_empty_input_has_sentinel_verdict :
    (runReport "" "python" RegState.fresh).totalLines = 0 ∧
    (runReport "" "python" RegState.fresh).overallConfidence = 1/2 ∧
    (runReport "" "python" RegState.fresh).lineAnalysis ≠ [] := by
  decide

/-- Claim C3 (amended): for every language and every module state, the
empty input yields `totalLines = 0`, `overallConfidence = 0.5`, zero
percentages, and a verdict list holding exactly the one blank-line
sentinel produced for the single empty line of `"".split('\n')`; the
module state is untouched. -/
theorem C3_empty_input_report (language : String) (st : RegState) :
    analyzeCode "" language st =
      .ok ({ totalLines := 0, aiLines := 0, humanLines := 0, aiPercentage := 0,
             humanPercentage := 0, overallConfidence := 1/2,
             lineAnalysis := [{ content := "", isAI := false, confidence := 1/2,
                                reasons := ["Empty line - neutral"] }] }, st) :=
  rfl

set_option maxRecDepth 40000 in
set_option maxHeartbeats 2000000 in
/-- Claim C4 (counterexample): on `"// TODO: fix this hack later"` the
accumulated human score is `1.1`, not the claimed `0.8` — besides the TODO
pattern (`0.5`) and the placeholder word `hack` (`0.3`), the leading `//`
also matches the regex-literal pattern `\/(?:\\.|[^\/\\\n])*\/[gimuy]*` as
an empty regex, adding another `0.3` — so the line's confidence is
`1.1/1.4 = 11/14 ≈ 0.786`, not `0.8/1.1 ≈ 0.727`. -/
theorem C4_human_score_is_larger :
    humanScoreOf C4code "x" = 11/10 ∧ ¬ humanScoreOf C4code "x" = 8/10 ∧
    aiScoreOf C4code "x" = 3/10 ∧
    (lineOf C4code "x").confidence = 11/14 ∧ ¬ (lineOf C4code "x").confidence = 8/11 ∧
    "Contains complex regex patterns" ∈ (lineOf C4code "x").reasons := by
  decide

set_option maxRecDepth 40000 in
set_option maxHeartbeats 2000000 in
/-- Claim C7 (refuted by the code, code bug): the structural boost is not
the only cross-line interaction.  In `"try \x7b\ntry \x7b"` the two lines are
byte-identical, the structural scalar is `0.5` (no boost), yet the first
line is classified AI with confidence `0.95` while the second is Human
with confidence `0.5` — because the first line's match moved the shared
try/catch regex's `lastIndex` past the second line's text.  Analyzing the
same line alone from the fresh state gives the first line's verdict. -/
theorem C7_line_verdict_depends_on_other_lines :
    (runReport "try \x7b\ntry \x7b" "x" RegState.fresh).lineAnalysis.map
        (fun v => (v.content, v.isAI, v.confidence))
      = [("try \x7b", true, 19/20), ("try \x7b", false, 1/2)] ∧
    analyzeCodeStructure "try \x7b\ntry \x7b" ≤ 1/2 ∧
    (lineOf "try \x7b" "x").isAI = true ∧ (lineOf "try \x7b" "x").confidence = 19/20 := by
  decide

set_option maxRecDepth 100000 in
set_option maxHeartbeats 4000000 in
/-- Claim C8 (counterexample): appending the TODO marker `" TODO: fix"` to
the 114-character Human-classified line `C8line` decreases its confidence
from `3/4` to `8/11`: the appended marker pushes the line over the
120-character threshold, adding AI weight `0.2`, so although the human
score rises from `0.3` to `0.8` the confidence ratio falls. -/
theorem C8_todo_can_decrease_confidence :
    (lineOf C8line "x").isAI = false ∧
    humanScoreOf C8line "x" < humanScoreOf (C8line ++ " TODO: fix") "x" ∧
    (lineOf (C8line ++ " TODO: fix") "x").confidence < (lineOf C8line "x").confidence := by
  decide

set_option maxRecDepth 100000 in
set_option maxHeartbeats 4000000 in
set_option exponentiation.threshold 2100 in
/-- Claim C5 (counterexample): the two percentages do *not* sum to exactly
`100` in every successful run with `totalLines > 0`.  On the three-line
input `C5code` (`totalLines = 3`, `aiLines = 1`) the source computes
`(1/3)*100 + (2/3)*100` in doubles, and the two returned fields sum to
`99.99999999999999`. -/
theorem C5_percentages_do_not_sum_to_100 :
    (runReport C5code "x" RegState.fresh).totalLines = 3 ∧
    (runReport C5code "x" RegState.fresh).aiLines = 1 ∧
    (runReport C5code "x" RegState.fresh).humanLines = 2 ∧
    ¬ ((runReport C5code "x" RegState.fresh).aiPercentage
        + (runReport C5code "x" RegState.fresh).humanPercentage = 100) := by
  decide

theorem AI_PATTERNS_weight_nonneg : ∀ p ∈ AI_PATTERNS, 0 ≤ p.weight := by
  intro p hp
  simp only [AI_PATTERNS, List.mem_cons, List.not_mem_nil, or_false] at hp
  rcases hp with rfl | rfl | rfl | rfl | rfl | rfl | rfl | rfl <;> norm_num [todoPattern]

theorem JS_PATTERNS_weight_nonneg : ∀ p ∈ JS_PATTERNS, 0 ≤ p.weight := by
  intro p hp
  simp only [JS_PATTERNS, List.mem_cons, List.not_mem_nil, or_false] at hp
  rcases hp with rfl | rfl <;> norm_num

theorem PYTHON_PATTERNS_weight_nonneg : ∀ p ∈ PYTHON_PATTERNS, 0 ≤ p.weight := by
  intro p hp
  simp only [PYTHON_PATTERNS, List.mem_cons, List.not_mem_nil, or_false] at hp
  rcases hp with rfl | rfl <;> norm_num

theorem TYPESCRIPT_PATTERNS_weight_nonneg : ∀ p ∈ TYPESCRIPT_PATTERNS, 0 ≤ p.weight := by
  intro p hp
  simp only [TYPESCRIPT_PATTERNS, List.mem_cons, List.not_mem_nil, or_false] at hp
  rcases hp with rfl <;> norm_num

theorem stepPat_mono (p : DetectionPattern) (li : Nat) (cs : List Char) (s : ScoreAcc)
    (hw : 0 ≤ p.weight) :
    s.aiScore ≤ ((stepPat p li cs s).1).aiScore ∧
    s.humanScore ≤ ((stepPat p li cs s).1).humanScore := by
  unfold stepPat
  cases hb : (regTest p.pattern li cs).1 <;> cases hai : p.aiIndicator <;>
    simp [hb, hai] <;> linarith

theorem stepPat_fired_human (p : DetectionPattern) (li : Nat) (cs : List Char) (s : ScoreAcc)
    (hfire : (regTest p.pattern li cs).1 = true) (hai : p.aiIndicator = false) :
    ((stepPat p li cs s).1).humanScore = s.humanScore + p.weight := by
  unfold stepPat
  simp [hfire, hai]

theorem runPats_fst_nil (sts : List Nat) (cs : List Char) (s : ScoreAcc) :
    (runPats [] sts cs s).1 = s := rfl

theorem runPats_fst_cons (p : DetectionPattern) (ps : List DetectionPattern) (sts : List Nat)
    (cs : List Char) (s : ScoreAcc) :
    (runPats (p :: ps) sts cs s).1 =
      (runPats ps sts.tail cs (stepPat p (sts.headD 0) cs s).1).1 := rfl

theorem runPats_mono :
    ∀ (ps : List DetectionPattern) (sts : List Nat) (cs : List Char) (s : ScoreAcc),
      (∀ p ∈ ps, 0 ≤ p.weight) →
      s.aiScore ≤ ((runPats ps sts cs s).1).aiScore ∧
      s.humanScore ≤ ((runPats ps sts cs s).1).humanScore
  | [], sts, cs, s, _ => by simp [runPats_fst_nil]
  | p :: ps, sts, cs, s, hw => by
    have h1 := stepPat_mono p (sts.headD 0) cs s (hw p (List.mem_cons_self p ps))
    have h2 := runPats_mono ps sts.tail cs (stepPat p (sts.headD 0) cs s).1
      (fun q hq => hw q (List.mem_cons_of_mem p hq))
    rw [runPats_fst_cons]
    exact ⟨le_trans h1.1 h2.1, le_trans h1.2 h2.2⟩

theorem scoreLine_nonneg (cs : List Char) (language : String) (st : RegState) (s : ScoreAcc)
    (st' : RegState) (h : scoreLine cs language st = .ok (s, st')) :
    0 ≤ s.aiScore ∧ 0 ≤ s.humanScore := by
  have h0 := runPats_mono AI_PATTERNS st.gen cs ⟨0, 0, []⟩ AI_PATTERNS_weight_nonneg
  unfold scoreLine at h
  split_ifs at h with h1 h2 h3 h4
  · have h5 := runPats_mono JS_PATTERNS st.js cs
      (runPats AI_PATTERNS st.gen cs ⟨0, 0, []⟩).1 JS_PATTERNS_weight_nonneg
    injection h with h'
    injection h' with hs hst
    rw [← hs]
    exact ⟨le_trans h0.1 h5.1, le_trans h0.2 h5.2⟩
  · have h5 := runPats_mono PYTHON_PATTERNS st.py cs
      (runPats AI_PATTERNS st.gen cs ⟨0, 0, []⟩).1 PYTHON_PATTERNS_weight_nonneg
    injection h with h'
    injection h' with hs hst
    rw [← hs]
    exact ⟨le_trans h0.1 h5.1, le_trans h0.2 h5.2⟩
  · have h5 := runPats_mono TYPESCRIPT_PATTERNS st.ts cs
      (runPats AI_PATTERNS st.gen cs ⟨0, 0, []⟩).1 TYPESCRIPT_PATTERNS_weight_nonneg
    injection h with h'
    injection h' with hs hst
    rw [← hs]
    exact ⟨le_trans h0.1 h5.1, le_trans h0.2 h5.2⟩
  · injection h with h'
    injection h' with hs hst
    rw [← hs]
    exact h0

theorem heurLength_mono (cs : List Char) (s : ScoreAcc) :
    s.aiScore ≤ (heurLength cs s).aiScore ∧ s.humanScore ≤ (heurLength cs s).humanScore := by
  unfold heurLength
  split_ifs <;> simp <;> linarith

theorem heurCleanChars_mono (cs : List Char) (s : ScoreAcc) :
    s.aiScore ≤ (heurCleanChars cs s).aiScore ∧
    s.humanScore ≤ (heurCleanChars cs s).humanScore := by
  unfold heurCleanChars
  split_ifs <;> simp <;> linarith

theorem heurQuirky_mono (cs : List Char) (s : ScoreAcc) :
    s.aiScore ≤ (heurQuirky cs s).aiScore ∧ s.humanScore ≤ (heurQuirky cs s).humanScore := by
  unfold heurQuirky
  split_ifs <;> simp <;> linarith

theorem applyHeuristics_mono (cs : List Char) (s : ScoreAcc) :
    s.aiScore ≤ (applyHeuristics cs s).aiScore ∧
    s.humanScore ≤ (applyHeuristics cs s).humanScore := by
  unfold applyHeuristics
  have h1 := heurLength_mono cs s
  have h2 := heurCleanChars_mono cs (heurLength cs s)
  have h3 := heurQuirky_mono cs (heurCleanChars cs (heurLength cs s))
  exact ⟨le_trans h1.1 (le_trans h2.1 h3.1), le_trans h1.2 (le_trans h2.2 h3.2)⟩

/-! ### Per-verdict confidence bounds -/

theorem mkVerdict_confidence (line : String) (s : ScoreAcc) (ha : 0 ≤ s.aiScore)
    (hh : 0 ≤ s.humanScore) :
    1/2 ≤ (mkVerdict line s).confidence ∧ (mkVerdict line s).confidence ≤ 19/20 := by
  unfold mkVerdict
  dsimp only
  refine ⟨le_min (le_trans ?_ (le_max_left _ _)) (by norm_num), min_le_right _ _⟩
  split_ifs with ht
  · rw [le_div_iff₀ ht]
    rcases max_cases s.aiScore s.humanScore with ⟨he, hge⟩ | ⟨he, hge⟩ <;> rw [he] <;> linarith
  · norm_num

theorem mkVerdict_content (line : String) (s : ScoreAcc) : (mkVerdict line s).content = line := rfl

theorem analyzeLine_ok (line : String) (n : Nat) (language : String) (st : RegState)
    (a : LineAnalysis) (st' : RegState) (h : analyzeLine line n language st = .ok (a, st')) :
    a.content = line ∧ lineInv a := by
  unfold analyzeLine at h
  by_cases hb : jsTrim line = ""
  · rw [if_pos hb] at h
    injection h with h'
    injection h' with ha hst
    subst ha
    exact ⟨rfl, fun _ => ⟨rfl, rfl⟩, fun hc => absurd hb hc⟩
  · rw [if_neg hb] at h
    cases hs : scoreLine (jsTrim line).data language st with
    | error e => rw [hs] at h; exact Except.noConfusion h
    | ok p =>
      obtain ⟨s0, st2⟩ := p
      rw [hs] at h
      injection h with h'
      injection h' with ha hst
      subst ha
      have hnn := scoreLine_nonneg _ _ _ _ _ hs
      have hmono := applyHeuristics_mono (jsTrim line).data s0
      have hconf := mkVerdict_confidence line (applyHeuristics (jsTrim line).data s0)
        (le_trans hnn.1 hmono.1) (le_trans hnn.2 hmono.2)
      exact ⟨rfl, fun hc => absurd hc hb, fun _ => hconf⟩

theorem applyBoost_content (sc : ℚ) (a : LineAnalysis) :
    (applyBoost sc a).content = a.content := by
  unfold applyBoost
  split <;> rfl

theorem applyBoost_inv (sc : ℚ) (a : LineAnalysis) (h : lineInv a) : lineInv (applyBoost sc a) := by
  unfold applyBoost
  split_ifs with hc
  · constructor
    · intro hblank
      rw [(h.1 hblank).2] at hc
      exact absurd hc.2 (by simp)
    · intro hnb
      have hbd := h.2 hnb
      exact ⟨le_min (by linarith [hbd.1]) (by norm_num), min_le_right _ _⟩
  · exact h

theorem analyzeAllLines_ok :
    ∀ (lines : List String) (i : Nat) (language : String) (sc : ℚ) (st : RegState)
      (la : List LineAnalysis) (st' : RegState),
      analyzeAllLines lines i language sc st = .ok (la, st') →
      la.map (fun v => v.content) = lines ∧ ∀ v ∈ la, lineInv v
  | [], i, language, sc, st, la, st', h => by
    unfold analyzeAllLines at h
    injection h with h'
    injection h' with hla hst
    rw [← hla]
    simp
  | line :: rest, i, language, sc, st, la, st', h => by
    unfold analyzeAllLines at h
    split at h
    · exact Except.noConfusion h
    · rename_i p a st1 hA
      split at h
      · exact Except.noConfusion h
      · rename_i q las st2 hR
        injection h with h'
        injection h' with hla hst
        subst hla
        have hline := analyzeLine_ok line (i + 1) language st a st1 hA
        have ih := analyzeAllLines_ok rest (i + 1) language sc st1 las st2 hR
        constructor
        · simp [applyBoost_content, hline.1, ih.1]
        · intro v hv
          rcases List.mem_cons.mp hv with rfl | hv'
          · exact applyBoost_inv sc a hline.2
          · exact ih.2 v hv'

/-! ### Binary64 rounding error bounds -/

theorem two_zpow_pos (k : ℤ) : (0:ℚ) < 2 ^ k := zpow_pos (by norm_num) k

theorem shift2_eq (q : ℚ) (k : ℤ) : shift2 q k = q * (2:ℚ) ^ k := by
  unfold shift2
  split_ifs with hk
  · have h1 : ((2 ^ k.toNat : ℕ) : ℚ) = (2:ℚ) ^ k := by
      push_cast
      rw [← zpow_natCast, Int.toNat_of_nonneg hk]
    rw [h1]
  · have h2 : ((2 ^ (-k).toNat : ℕ) : ℚ) = (2:ℚ) ^ (-k) := by
      push_cast
      rw [← zpow_natCast, Int.toNat_of_nonneg (by omega : (0:ℤ) ≤ -k)]
    rw [h2, zpow_neg, div_eq_mul_inv, inv_inv]

theorem findExpGo_spec (q : ℚ) :
    ∀ (fuel : Nat) (e0 : ℤ), (2:ℚ) ^ e0 ≤ q → ∀ e, findExpGo q fuel e0 = some e →
      (2:ℚ) ^ e ≤ q ∧ q < (2:ℚ) ^ (e + 1)
  | 0, e0, _, e, h => by simp [findExpGo] at h
  | fuel + 1, e0, hle, e, h => by
    rw [findExpGo] at h
    split_ifs at h with hlt
    · injection h with h
      subst h
      refine ⟨hle, ?_⟩
      rwa [shift2_eq, one_mul] at hlt
    · refine findExpGo_spec q fuel (e0 + 1) ?_ e h
      rw [not_lt, shift2_eq, one_mul] at hlt
      exact hlt

theorem roundInt_bounds (m : ℚ) :
    m - 1/2 ≤ (roundInt m : ℚ) ∧ (roundInt m : ℚ) ≤ m + 1/2 := by
  have h1 := Int.floor_le m
  have h2 := Int.lt_floor_add_one m
  unfold roundInt
  split_ifs with ha hb hc
  all_goals push_cast
  all_goals constructor <;> linarith

theorem roundPos_bounds (q : ℚ) (hq : 0 < q) :
    q * (1 - 1/2^52) ≤ roundPos q ∧ roundPos q ≤ q * (1 + 1/2^52) := by
  have htriv : q * (1 - 1/2^52) ≤ q ∧ q ≤ q * (1 + 1/2^52) := by
    constructor <;> nlinarith
  unfold roundPos
  split_ifs with hlow
  · cases hfe : findExpGo q 2046 (-1022) with
    | none => exact htriv
    | some e =>
      obtain ⟨hel, heu⟩ := findExpGo_spec q 2046 (-1022)
        (by rwa [shift2_eq, one_mul] at hlow) e hfe
      dsimp only
      rw [shift2_eq, shift2_eq]
      obtain ⟨hn1, hn2⟩ := roundInt_bounds (q * (2:ℚ) ^ (52 - e))
      have hXpos : (0:ℚ) < (2:ℚ) ^ (e - 52) := two_zpow_pos _
      have hcancel : (2:ℚ) ^ (52 - e) * (2:ℚ) ^ (e - 52) = 1 := by
        rw [← zpow_add₀ (by norm_num : (2:ℚ) ≠ 0)]
        norm_num
      have hqq : q * (2:ℚ) ^ (52 - e) * (2:ℚ) ^ (e - 52) = q := by
        rw [mul_assoc, hcancel, mul_one]
      have hup := mul_le_mul_of_nonneg_right hn2 (le_of_lt hXpos)
      have hlo := mul_le_mul_of_nonneg_right hn1 (le_of_lt hXpos)
      have hkey : (1/2) * (2:ℚ) ^ (e - 52) ≤ q * (1/2^52) := by
        have h1 : (2:ℚ) ^ (e - 52) = (2:ℚ) ^ e * (1/2^52) := by
          rw [show (1/2^52 : ℚ) = (2:ℚ) ^ (-(52:ℤ)) from by rw [zpow_neg]; norm_num,
            ← zpow_add₀ (by norm_num : (2:ℚ) ≠ 0), sub_eq_add_neg]
        have h2 : (2:ℚ) ^ e * (1/2^52) ≤ q * (1/2^52) :=
          mul_le_mul_of_nonneg_right hel (by norm_num)
        nlinarith [two_zpow_pos e]
      constructor
      · nlinarith [hlo, hkey, hqq]
      · nlinarith [hup, hkey, hqq]
  · exact htriv

theorem roundDouble_bounds (q : ℚ) (hq : 0 ≤ q) :
    q * (1 - 1/2^52) ≤ roundDouble q ∧ roundDouble q ≤ q * (1 + 1/2^52) := by
  rcases eq_or_lt_of_le hq with h0 | hpos
  · rw [roundDouble, if_pos h0.symm, ← h0]
    norm_num
  · rw [roundDouble, if_neg (ne_of_gt hpos), if_pos hpos]
    exact roundPos_bounds q hpos

theorem roundDouble_nonneg (q : ℚ) (hq : 0 ≤ q) : 0 ≤ roundDouble q := by
  have h1 := (roundDouble_bounds q hq).1
  have h2 : (0:ℚ) ≤ q * (1 - 1/2^52) := mul_nonneg hq (by norm_num)
  linarith

theorem roundDouble_err (q B : ℚ) (hq : 0 ≤ q) (hB : q ≤ B) :
    q - B * (1/2^52) ≤ roundDouble q ∧ roundDouble q ≤ q + B * (1/2^52) := by
  obtain ⟨h1, h2⟩ := roundDouble_bounds q hq
  have hd : q * (1/2^52) ≤ B * (1/2^52) :=
    mul_le_mul_of_nonneg_right hB (by norm_num)
  constructor <;> nlinarith

theorem percentage_bound (a t : ℕ) (ha : a ≤ t) (ht : 0 < t) :
    100 - 1/2^40 ≤ fmul (fdiv (a:ℚ) (t:ℚ)) 100 + fmul (fdiv ((t - a : ℕ):ℚ) (t:ℚ)) 100 ∧
    fmul (fdiv (a:ℚ) (t:ℚ)) 100 + fmul (fdiv ((t - a : ℕ):ℚ) (t:ℚ)) 100 ≤ 100 + 1/2^40 := by
  have htQ : (0:ℚ) < (t:ℚ) := by exact_mod_cast ht
  have hA0 : (0:ℚ) ≤ (a:ℚ)/(t:ℚ) := by positivity
  have hA1 : (a:ℚ)/(t:ℚ) ≤ 1 := by
    rw [div_le_one htQ]
    exact_mod_cast ha
  have hHc : ((t - a : ℕ):ℚ) = (t:ℚ) - (a:ℚ) := by
    push_cast [ha]
    ring
  have hH0 : (0:ℚ) ≤ ((t - a : ℕ):ℚ)/(t:ℚ) := by positivity
  have hsum : (a:ℚ)/(t:ℚ) + ((t - a : ℕ):ℚ)/(t:ℚ) = 1 := by
    rw [hHc]
    field_simp
  have hH1 : ((t - a : ℕ):ℚ)/(t:ℚ) ≤ 1 := by linarith
  unfold fmul fdiv
  have hx1 := roundDouble_err ((a:ℚ)/(t:ℚ)) 1 hA0 hA1
  have hy1 := roundDouble_err (((t - a : ℕ):ℚ)/(t:ℚ)) 1 hH0 hH1
  have hx1n : 0 ≤ roundDouble ((a:ℚ)/(t:ℚ)) := roundDouble_nonneg _ hA0
  have hy1n : 0 ≤ roundDouble (((t - a : ℕ):ℚ)/(t:ℚ)) := roundDouble_nonneg _ hH0
  have hx2 := roundDouble_err (roundDouble ((a:ℚ)/(t:ℚ)) * 100) 200
    (by positivity) (by nlinarith [hx1.2])
  have hy2 := roundDouble_err (roundDouble (((t - a : ℕ):ℚ)/(t:ℚ)) * 100) 200
    (by positivity) (by nlinarith [hy1.2])
  have hfact : (600:ℚ) * (1/2^52) ≤ 1/2^40 := by norm_num
  constructor <;> nlinarith [hx1.1, hx1.2, hy1.1, hy1.2, hx2.1, hx2.2, hy2.1, hy2.2]

/-! ### Report-level invariants -/

theorem analyzeCode_ok_report (code language : String) (st : RegState) (r : AnalysisResult)
    (st' : RegState) (h : analyzeCode code language st = .ok (r, st')) :
    ∃ la, analyzeAllLines (jsSplit code) 0 language (analyzeCodeStructure code) st
        = .ok (la, st') ∧ r = buildReport la := by
  unfold analyzeCode at h
  cases hA : analyzeAllLines (jsSplit code) 0 language (analyzeCodeStructure code) st with
  | error e => rw [hA] at h; exact Except.noConfusion h
  | ok p =>
    obtain ⟨la, st2⟩ := p
    rw [hA] at h
    injection h with h'
    injection h' with hr hst
    subst hst
    exact ⟨la, rfl, hr.symm⟩

theorem buildReport_lineAnalysis (la : List LineAnalysis) :
    (buildReport la).lineAnalysis = la := rfl

theorem buildReport_stats (la : List LineAnalysis) :
    (buildReport la).aiLines + (buildReport la).humanLines = (buildReport la).totalLines ∧
    (buildReport la).totalLines = (la.filter (fun v => ¬ jsTrim v.content = "")).length ∧
    (0 < (buildReport la).totalLines →
      100 - 1/2^40 ≤ (buildReport la).aiPercentage + (buildReport la).humanPercentage ∧
      (buildReport la).aiPercentage + (buildReport la).humanPercentage ≤ 100 + 1/2^40) ∧
    ((buildReport la).totalLines = 0 →
      (buildReport la).aiPercentage = 0 ∧ (buildReport la).humanPercentage = 0) := by
  have hle : ((la.filter (fun v => ¬ jsTrim v.content = "")).filter (fun l => l.isAI)).length ≤
      (la.filter (fun v => ¬ jsTrim v.content = "")).length := List.length_filter_le _ _
  unfold buildReport
  dsimp only
  refine ⟨Nat.add_sub_cancel' hle, rfl, ?_, ?_⟩
  · intro hpos
    rw [if_pos hpos, if_pos hpos]
    exact percentage_bound _ _ hle hpos
  · intro h0
    rw [if_neg (by omega), if_neg (by omega)]
    exact ⟨rfl, rfl⟩

/-- Claim C5 (amended): for every successful run,
`aiLines + humanLines = totalLines`, which is the number of non-blank line
verdicts; when `totalLines > 0` the two percentages — each the double
rounding of its exact value — sum to `100` only up to the accumulated
rounding error, which is below `2 ^ (-40)` (and can be nonzero, see
`C5_percentages_do_not_sum_to_100`); both percentages are exactly `0` when
`totalLines = 0`. -/
theorem C5_report_invariants (code language : String) (st : RegState) (r : AnalysisResult)
    (st' : RegState) (h : analyzeCode code language st = .ok (r, st')) :
    r.aiLines + r.humanLines = r.totalLines ∧
    r.totalLines = (r.lineAnalysis.filter (fun v => ¬ jsTrim v.content = "")).length ∧
    (0 < r.totalLines →
      100 - 1/2^40 ≤ r.aiPercentage + r.humanPercentage ∧
      r.aiPercentage + r.humanPercentage ≤ 100 + 1/2^40) ∧
    (r.totalLines = 0 → r.aiPercentage = 0 ∧ r.humanPercentage = 0) := by
  obtain ⟨la, hA, hr⟩ := analyzeCode_ok_report code language st r st' h
  subst hr
  exact buildReport_stats la

/-- Claim C6: in every successful run, every blank (whitespace-only) line's
verdict has confidence exactly `0.5` and classification Human, and every
non-blank line verdict's confidence lies in `[0.1, 0.95]`. -/
theorem C6_confidence_bounds (code language : String) (st : RegState) (r : AnalysisResult)
    (st' : RegState) (h : analyzeCode code language st = .ok (r, st'))
    (v : LineAnalysis) (hv : v ∈ r.lineAnalysis) :
    (jsTrim v.content = "" → v.confidence = 1/2 ∧ v.isAI = false) ∧
    (¬ jsTrim v.content = "" → 1/10 ≤ v.confidence ∧ v.confidence ≤ 19/20) := by
  obtain ⟨la, hA, hr⟩ := analyzeCode_ok_report code language st r st' h
  subst hr
  have hinv := (analyzeAllLines_ok _ _ _ _ _ _ _ hA).2 v hv
  exact ⟨hinv.1, fun hnb => ⟨le_trans (by norm_num) (hinv.2 hnb).1, (hinv.2 hnb).2⟩⟩

theorem splitGo_ne_nil : ∀ cs : List Char, splitGo cs ≠ []
  | [] => by simp [splitGo]
  | c :: rest => by
    unfold splitGo
    split_ifs
    · simp
    · cases hs : splitGo rest <;> simp

theorem splitGo_length : ∀ cs : List Char, (splitGo cs).length = cs.count '\n' + 1
  | [] => by simp [splitGo]
  | c :: rest => by
    unfold splitGo
    by_cases hc : c = '\n'
    · rw [if_pos hc]
      have := splitGo_length rest
      simp [List.count_cons, hc, this]
    · rw [if_neg hc]
      cases hs : splitGo rest with
      | nil => exact absurd hs (splitGo_ne_nil rest)
      | cons g gs =>
        have := splitGo_length rest
        rw [hs] at this
        simp only [List.length_cons] at this ⊢
        simp [List.count_cons, hc]
        omega

theorem jsSplit_length (s : String) : (jsSplit s).length = s.data.count '\n' + 1 := by
  simp [jsSplit, splitGo_length]

/-- Claim C10: in every successful run the verdict list has exactly
(number of newline characters in the input) + 1 entries — hence at least
one even for empty input — in original order, and the stored contents are
exactly the raw, untrimmed lines of `code.split('\n')`. -/
theorem C10_verdicts_align_with_lines (code language : String) (st : RegState)
    (r : AnalysisResult) (st' : RegState) (h : analyzeCode code language st = .ok (r, st')) :
    r.lineAnalysis.length = code.data.count '\n' + 1 ∧
    r.lineAnalysis.map (fun v => v.content) = jsSplit code := by
  obtain ⟨la, hA, hr⟩ := analyzeCode_ok_report code language st r st' h
  subst hr
  have hc := (analyzeAllLines_ok _ _ _ _ _ _ _ hA).1
  rw [buildReport_lineAnalysis]
  constructor
  · have hlen : la.length = (jsSplit code).length := by
      rw [← hc]
      simp
    rw [hlen, jsSplit_length]
  · exact hc

/-! ### Monotonicity of the TODO pattern (claim C8) -/

theorem matchTodoMarker_at (p : Option Char) (rest : List Char) :
    matchTodoMarker p ('T' :: 'O' :: 'D' :: 'O' :: ':' :: rest) = some 5 := rfl

theorem searchGo_todo_isSome :
    ∀ (pre : List Char) (prev : Option Char) (pos : Nat) (rest : List Char),
      (searchGo matchTodoMarker prev pos
        (pre ++ 'T' :: 'O' :: 'D' :: 'O' :: ':' :: rest)).isSome = true
  | [], prev, pos, rest => by
    rw [List.nil_append, searchGo, matchTodoMarker_at]
    rfl
  | c :: pre, prev, pos, rest => by
    rw [List.cons_append, searchGo]
    cases hm : matchTodoMarker prev (c :: (pre ++ 'T' :: 'O' :: 'D' :: 'O' :: ':' :: rest)) with
    | some len => rfl
    | none => exact searchGo_todo_isSome pre (some c) (pos + 1) rest

theorem regTest_todo_fires (cs pre rest : List Char)
    (hcs : cs = pre ++ 'T' :: 'O' :: 'D' :: 'O' :: ':' :: rest) :
    (regTest matchTodoMarker 0 cs).1 = true := by
  subst hcs
  unfold regTest
  rw [if_neg (by omega)]
  unfold searchFrom
  simp only [List.take_zero, List.drop_zero, List.getLast?_nil]
  have hS := searchGo_todo_isSome pre none 0 rest
  cases hsg : searchGo matchTodoMarker none 0 (pre ++ 'T' :: 'O' :: 'D' :: 'O' :: ':' :: rest) with
  | some e => rfl
  | none => rw [hsg] at hS; exact absurd hS (by simp)

theorem jsTrim_ne_empty_dropWhile (L : String) (hnb : ¬ jsTrim L = "") :
    ¬ L.data.dropWhile jsIsSpace = [] := by
  intro hd
  apply hnb
  unfold jsTrim trimList
  rw [hd]
  rfl

theorem trimList_append_todo (a : List Char) (ha : ¬ a.dropWhile jsIsSpace = []) :
    trimList (a ++ " TODO: fix".data) = a.dropWhile jsIsSpace ++ " TODO: fix".data := by
  unfold trimList
  rw [List.dropWhile_append, if_neg (by simpa using ha), List.reverse_append]
  have hkeep : List.dropWhile jsIsSpace
        ((" TODO: fix".data).reverse ++ (a.dropWhile jsIsSpace).reverse)
      = (" TODO: fix".data).reverse ++ (a.dropWhile jsIsSpace).reverse := by
    rw [show (" TODO: fix".data).reverse =
        'x' :: ('i' :: 'f' :: ' ' :: ':' :: 'O' :: 'D' :: 'O' :: 'T' :: ' ' :: []) from rfl]
    rw [List.cons_append, List.dropWhile_cons, if_neg (by decide)]
  rw [hkeep, List.reverse_append, List.reverse_reverse, List.reverse_reverse]

theorem jsTrim_append_todo (L : String) (hnb : ¬ jsTrim L = "") :
    (jsTrim (L ++ " TODO: fix")).data =
      (L.data.dropWhile jsIsSpace ++ [' ']) ++
        'T' :: 'O' :: 'D' :: 'O' :: ':' :: (' ' :: 'f' :: 'i' :: 'x' :: []) := by
  show trimList (L ++ " TODO: fix").data = _
  rw [show (L ++ " TODO: fix").data = L.data ++ " TODO: fix".data from String.data_append L _]
  rw [trimList_append_todo L.data (jsTrim_ne_empty_dropWhile L hnb)]
  rw [List.append_assoc]
  rfl

theorem runPats_fired_bound :
    ∀ (ps : List DetectionPattern) (n : Nat) (cs : List Char) (s : ScoreAcc)
      (q : DetectionPattern), q ∈ ps → (∀ p ∈ ps, 0 ≤ p.weight) →
      q.aiIndicator = false → (regTest q.pattern 0 cs).1 = true →
      s.humanScore + q.weight ≤ ((runPats ps (List.replicate n 0) cs s).1).humanScore
  | [], n, cs, s, q, hq, _, _, _ => absurd hq (List.not_mem_nil q)
  | p :: ps, n, cs, s, q, hq, hw, hai, hfire => by
    rw [runPats_fst_cons]
    have hhead : (List.replicate n 0).headD 0 = 0 := by cases n <;> rfl
    have htail : (List.replicate n 0).tail = List.replicate (n - 1) 0 := by cases n <;> rfl
    rw [hhead, htail]
    rcases List.mem_cons.mp hq with rfl | hq'
    · have he := stepPat_fired_human q 0 cs s hfire hai
      have hmono := (runPats_mono ps (List.replicate (n - 1) 0) cs (stepPat q 0 cs s).1
        (fun r hr => hw r (List.mem_cons_of_mem q hr))).2
      linarith [he, hmono]
    · have h1 := (stepPat_mono p 0 cs s (hw p (List.mem_cons_self p ps))).2
      have ih := runPats_fired_bound ps (n - 1) cs (stepPat p 0 cs s).1 q hq'
        (fun r hr => hw r (List.mem_cons_of_mem p hr)) hai hfire
      linarith [h1, ih]

/-- Claim C8 (amended, general half): appending the TODO marker
`" TODO: fix"` to any non-blank line that accumulated no weight at all
(an "otherwise neutral" line) strictly increases the line's accumulated
human score — the TODO pattern alone contributes `0.5`, every other
contribution is nonnegative, and the original human score was `0`.  The
language may be any identifier that does not name an `Object.prototype`
member (those throw, see C2). -/
theorem C8_todo_increases_human_weight (L language : String)
    (hnb : ¬ jsTrim L = "")
    (hlang : objectProtoProps.contains language = false)
    (hai0 : aiScoreOf L language = 0) (hhu0 : humanScoreOf L language = 0) :
    humanScoreOf L language < humanScoreOf (L ++ " TODO: fix") language := by
  rw [hhu0]
  have hfire : (regTest matchTodoMarker 0 (jsTrim (L ++ " TODO: fix")).data).1 = true :=
    regTest_todo_fires _ _ _ (jsTrim_append_todo L hnb)
  have hmem : todoPattern ∈ AI_PATTERNS := by
    unfold AI_PATTERNS
    exact List.mem_cons_of_mem _ (List.mem_cons_of_mem _ (List.mem_cons_of_mem _
      (List.mem_cons_of_mem _ (List.mem_cons_self _ _))))
  have hbase : (1:ℚ)/2 ≤ ((runPats AI_PATTERNS RegState.fresh.gen
      (jsTrim (L ++ " TODO: fix")).data ⟨0, 0, []⟩).1).humanScore := by
    have hb := runPats_fired_bound AI_PATTERNS 8 (jsTrim (L ++ " TODO: fix")).data ⟨0, 0, []⟩
      todoPattern hmem AI_PATTERNS_weight_nonneg rfl hfire
    rw [show RegState.fresh.gen = List.replicate 8 0 from rfl]
    norm_num [todoPattern] at hb
    exact hb
  have hfin : (1:ℚ)/2 ≤ humanScoreOf (L ++ " TODO: fix") language := by
    unfold humanScoreOf lineScores scoreLine
    split_ifs with h1 h2 h3 h4
    · exact le_trans (le_trans hbase
        ((runPats_mono JS_PATTERNS RegState.fresh.js _ _ JS_PATTERNS_weight_nonneg).2))
        ((applyHeuristics_mono _ _).2)
    · exact le_trans (le_trans hbase
        ((runPats_mono PYTHON_PATTERNS RegState.fresh.py _ _ PYTHON_PATTERNS_weight_nonneg).2))
        ((applyHeuristics_mono _ _).2)
    · exact le_trans (le_trans hbase
        ((runPats_mono TYPESCRIPT_PATTERNS RegState.fresh.ts _ _
          TYPESCRIPT_PATTERNS_weight_nonneg).2))
        ((applyHeuristics_mono _ _).2)
    · rw [h4] at hlang
      exact absurd hlang (by simp)
    · exact le_trans hbase ((applyHeuristics_mono _ _).2)
  linarith [hfin]

/-! ### Unrecognized languages behave like the empty pattern set -/

theorem scoreLine_unrecognized (cs : List Char) (language : String) (st : RegState)
    (h1 : ¬ language = "javascript") (h2 : ¬ language = "python")
    (h3 : ¬ language = "typescript") (h4 : objectProtoProps.contains language = false) :
    scoreLine cs language st = scoreLine cs "" st := by
  unfold scoreLine
  rw [if_neg h1, if_neg h2, if_neg h3, if_neg (show ¬ _ = true by rw [h4]; decide),
    if_neg (show ¬ ("" : String) = "javascript" by decide),
    if_neg (show ¬ ("" : String) = "python" by decide),
    if_neg (show ¬ ("" : String) = "typescript" by decide),
    if_neg (show ¬ objectProtoProps.contains "" = true by decide)]

theorem analyzeLine_unrecognized (line : String) (n : Nat) (language : String) (st : RegState)
    (h1 : ¬ language = "javascript") (h2 : ¬ language = "python")
    (h3 : ¬ language = "typescript") (h4 : objectProtoProps.contains language = false) :
    analyzeLine line n language st = analyzeLine line n "" st := by
  unfold analyzeLine
  rw [scoreLine_unrecognized _ _ _ h1 h2 h3 h4]

theorem analyzeAllLines_unrecognized :
    ∀ (lines : List String) (i : Nat) (language : String) (sc : ℚ) (st : RegState),
      ¬ language = "javascript" → ¬ language = "python" → ¬ language = "typescript" →
      objectProtoProps.contains language = false →
      analyzeAllLines lines i language sc st = analyzeAllLines lines i "" sc st
  | [], _, _, _, _, _, _, _, _ => rfl
  | line :: rest, i, language, sc, st, h1, h2, h3, h4 => by
    unfold analyzeAllLines
    rw [analyzeLine_unrecognized line (i + 1) language st h1 h2 h3 h4]
    cases hA : analyzeLine line (i + 1) "" st with
    | error e => rfl
    | ok p =>
      obtain ⟨a, st1⟩ := p
      show (match analyzeAllLines rest (i + 1) language sc st1 with
            | Except.error e => Except.error e
            | Except.ok (rs, st2) => Except.ok (applyBoost sc a :: rs, st2)) =
          (match analyzeAllLines rest (i + 1) "" sc st1 with
            | Except.error e => Except.error e
            | Except.ok (rs, st2) => Except.ok (applyBoost sc a :: rs, st2))
      rw [analyzeAllLines_unrecognized rest (i + 1) language sc st1 h1 h2 h3 h4]

theorem analyzeCode_unrecognized (code : String) (language : String) (st : RegState)
    (h1 : ¬ language = "javascript") (h2 : ¬ language = "python")
    (h3 : ¬ language = "typescript") (h4 : objectProtoProps.contains language = false) :
    analyzeCode code language st = analyzeCode code "" st := by
  unfold analyzeCode
  rw [analyzeAllLines_unrecognized (jsSplit code) 0 language (analyzeCodeStructure code) st
    h1 h2 h3 h4]

theorem scoreLine_proto (cs : List Char) (language : String) (st : RegState)
    (h4 : objectProtoProps.contains language = true) :
    scoreLine cs language st = .error () := by
  have h1 : ¬ language = "javascript" := by
    intro he
    rw [he] at h4
    exact absurd h4 (by decide)
  have h2 : ¬ language = "python" := by
    intro he
    rw [he] at h4
    exact absurd h4 (by decide)
  have h3 : ¬ language = "typescript" := by
    intro he
    rw [he] at h4
    exact absurd h4 (by decide)
  unfold scoreLine
  rw [if_neg h1, if_neg h2, if_neg h3, if_pos h4]

theorem analyzeLine_proto (line : String) (n : Nat) (language : String) (st : RegState)
    (hnb : ¬ jsTrim line = "") (h4 : objectProtoProps.contains language = true) :
    analyzeLine line n language st = .error () := by
  unfold analyzeLine
  rw [if_neg hnb, scoreLine_proto _ _ _ h4]

set_option maxRecDepth 100000 in
set_option maxHeartbeats 4000000 in
/-- Claim C4 (amended): for `"// TODO: fix this hack later"` and every
language for which the analysis succeeds, the single line is classified
Human with confidence `11/14 ≈ 0.786` (aiScore `0.3`, humanScore `1.1`,
see `C4_human_score_is_larger`), and the report counts it as the one
human line; the overall confidence is the double nearest `11/14`. -/
theorem C4_report_for_any_language (language : String) (r : AnalysisResult) (st' : RegState)
    (h : analyzeCode C4code language RegState.fresh = .ok (r, st')) :
    r.lineAnalysis.map (fun v => (v.isAI, v.confidence)) = [(false, 11/14)] ∧
    r.totalLines = 1 ∧ r.aiLines = 0 ∧ r.humanLines = 1 ∧
    r.overallConfidence = roundDouble (11/14) := by
  have hr : r = runReport C4code language RegState.fresh := by
    unfold runReport
    rw [h]
  subst hr
  by_cases h1 : language = "javascript"
  · subst h1
    decide
  by_cases h2 : language = "python"
  · subst h2
    decide
  by_cases h3 : language = "typescript"
  · subst h3
    decide
  by_cases h4 : objectProtoProps.contains language = true
  · exfalso
    have hline : analyzeLine C4code (0 + 1) language RegState.fresh = .error () :=
      analyzeLine_proto C4code (0 + 1) language RegState.fresh (by decide) h4
    unfold analyzeCode at h
    rw [show jsSplit C4code = [C4code] from rfl] at h
    unfold analyzeAllLines at h
    rw [hline] at h
    exact Except.noConfusion h
  · have h4' : objectProtoProps.contains language = false := by
      cases hcc : objectProtoProps.contains language
      · rfl
      · exact absurd hcc h4
    have heq : runReport C4code language RegState.fresh = runReport C4code "" RegState.fresh := by
      unfold runReport
      rw [analyzeCode_unrecognized C4code language RegState.fresh h1 h2 h3 h4']
    rw [heq]
    decide

/-! ### Witnesses: the conditional claim theorems applied at concrete inputs -/

set_option maxRecDepth 100000 in
set_option maxHeartbeats 2000000 in
theorem C4_report_witness :
    (runReport C4code "x" RegState.fresh).lineAnalysis.map (fun v => (v.isAI, v.confidence))
        = [(false, 11/14)] ∧
    (runReport C4code "x" RegState.fresh).totalLines = 1 ∧
    (runReport C4code "x" RegState.fresh).aiLines = 0 ∧
    (runReport C4code "x" RegState.fresh).humanLines = 1 ∧
    (runReport C4code "x" RegState.fresh).overallConfidence = roundDouble (11/14) :=
  C4_report_for_any_language "x" (runReport C4code "x" RegState.fresh)
    (runState C4code "x" RegState.fresh) rfl

set_option maxRecDepth 100000 in
set_option maxHeartbeats 2000000 in
theorem C5_report_invariants_witness :
    (runReport "foo" "x" RegState.fresh).aiLines + (runReport "foo" "x" RegState.fresh).humanLines
        = (runReport "foo" "x" RegState.fresh).totalLines ∧
    (runReport "foo" "x" RegState.fresh).totalLines
        = ((runReport "foo" "x" RegState.fresh).lineAnalysis.filter
            (fun v => ¬ jsTrim v.content = "")).length ∧
    (0 < (runReport "foo" "x" RegState.fresh).totalLines →
      100 - 1/2^40 ≤ (runReport "foo" "x" RegState.fresh).aiPercentage
          + (runReport "foo" "x" RegState.fresh).humanPercentage ∧
      (runReport "foo" "x" RegState.fresh).aiPercentage
          + (runReport "foo" "x" RegState.fresh).humanPercentage ≤ 100 + 1/2^40) ∧
    ((runReport "foo" "x" RegState.fresh).totalLines = 0 →
      (runReport "foo" "x" RegState.fresh).aiPercentage = 0 ∧
      (runReport "foo" "x" RegState.fresh).humanPercentage = 0) :=
  C5_report_invariants "foo" "x" RegState.fresh (runReport "foo" "x" RegState.fresh)
    (runState "foo" "x" RegState.fresh) rfl

set_option maxRecDepth 100000 in
set_option maxHeartbeats 2000000 in
theorem C6_confidence_bounds_witness :
    (jsTrim (lineOf "foo" "x").content = "" →
      (lineOf "foo" "x").confidence = 1/2 ∧ (lineOf "foo" "x").isAI = false) ∧
    (¬ jsTrim (lineOf "foo" "x").content = "" →
      1/10 ≤ (lineOf "foo" "x").confidence ∧ (lineOf "foo" "x").confidence ≤ 19/20) :=
  C6_confidence_bounds "foo" "x" RegState.fresh (runReport "foo" "x" RegState.fresh)
    (runState "foo" "x" RegState.fresh) rfl (lineOf "foo" "x") (by decide)

set_option maxRecDepth 100000 in
set_option maxHeartbeats 2000000 in
theorem C8_todo_increases_human_weight_witness :
    ¬ jsTrim "hello world and stuff" = "" ∧
    objectProtoProps.contains "x" = false ∧
    aiScoreOf "hello world and stuff" "x" = 0 ∧
    humanScoreOf "hello world and stuff" "x" = 0 ∧
    humanScoreOf "hello world and stuff" "x"
        < humanScoreOf ("hello world and stuff" ++ " TODO: fix") "x" :=
  ⟨by decide, by decide, by decide, by decide,
   C8_todo_increases_human_weight "hello world and stuff" "x" (by decide) (by decide)
     (by decide) (by decide)⟩

set_option maxRecDepth 100000 in
set_option maxHeartbeats 2000000 in
theorem C10_verdicts_align_witness :
    (runReport "a\nb" "x" RegState.fresh).lineAnalysis.length
        = ("a\nb" : String).data.count '\n' + 1 ∧
    (runReport "a\nb" "x" RegState.fresh).lineAnalysis.map (fun v => v.content)
        = jsSplit "a\nb" :=
  C10_verdicts_align_with_lines "a\nb" "x" RegState.fresh (runReport "a\nb" "x" RegState.fresh)
    (runState "a\nb" "x" RegState.fresh) rfl
